import Mathlib

/-!
Shallow embedding of the XLA:CPU function runtime buffer descriptor
(`tensorflow/compiler/xla/cpu_function_runtime.h`) and of the XLA:CPU host
kernel launch dispatcher (`xla/backends/cpu/runtime/kernel.cc`).

Machine integers are modelled as `Nat` with explicit reductions modulo
`2 ^ 64` (for `uint64_t` conversions) and `2 ^ 62` (for the 62-bit `size_`
bitfield) exactly where the C++ performs a conversion or a bitfield store.
The `int64_t entry_param_number_` member is modelled by its 64-bit pattern,
so the C++ value `-1` is the pattern `2 ^ 64 - 1`.
-/

/-- `2 ^ 64`, the modulus of `uint64_t` arithmetic. -/
def W64 : Nat := 2 ^ 64

/-- `2 ^ 62`, the modulus of the 62-bit `size_` bitfield. -/
def W62 : Nat := 2 ^ 62

/-- The 64-bit pattern of the `int64_t`/`uint64_t` value `-1`. -/
def neg1u64 : Nat := W64 - 1

/-- `enum class Kind : uint64_t { kConstant, kTempBuffer, kEntryParameter, kOnStackBuffer }`. -/
inductive Kind where
  | kConstant
  | kTempBuffer
  | kEntryParameter
  | kOnStackBuffer
deriving DecidableEq

/-- The numeric enumerator value of a `Kind` (enumerators are numbered from 0). -/
def Kind.toNat : Kind → Nat
  | .kConstant => 0
  | .kTempBuffer => 1
  | .kEntryParameter => 2
  | .kOnStackBuffer => 3

/-- `static_cast<Kind>` applied to the 2-bit value extracted by `Unpack`;
every pattern in {0, 1, 2, 3} names an enumerator. -/
def Kind.ofBits (n : Nat) : Kind :=
  match n with
  | 0 => .kConstant
  | 1 => .kTempBuffer
  | 2 => .kEntryParameter
  | _ => .kOnStackBuffer

/-- `class BufferInfo`, fields `Kind kind_ : 2; uint64_t size_ : 62;
int64_t entry_param_number_;`.  The representation invariant maintained by
every constructor below is `size_ < W62` and `entry_param_number_ < W64`,
mirroring the bitfield widths. -/
structure BufferInfo where
  kind_ : Kind
  size_ : Nat
  entry_param_number_ : Nat
deriving DecidableEq

/-- `kind()` accessor. -/
def BufferInfo.kind (b : BufferInfo) : Kind := b.kind_

/-- `size()` accessor. -/
def BufferInfo.size (b : BufferInfo) : Nat := b.size_

/-- `is_constant()`. -/
def BufferInfo.is_constant (b : BufferInfo) : Bool := b.kind == Kind.kConstant

/-- `is_entry_parameter()`. -/
def BufferInfo.is_entry_parameter (b : BufferInfo) : Bool :=
  b.kind == Kind.kEntryParameter

/-- `is_temp_buffer()`. -/
def BufferInfo.is_temp_buffer (b : BufferInfo) : Bool := b.kind == Kind.kTempBuffer

/-- `is_on_stack_buffer()`. -/
def BufferInfo.is_on_stack_buffer (b : BufferInfo) : Bool :=
  b.kind == Kind.kOnStackBuffer

/-- `entry_parameter_number()`.  The C++ asserts `is_entry_parameter()` first;
callers in the modelled code only invoke it under that guard. -/
def BufferInfo.entry_parameter_number (b : BufferInfo) : Nat :=
  b.entry_param_number_

/-- `Pack(kind, size) = (static_cast<uint64_t>(size) << 2) | static_cast<uint64_t>(kind)`.
The shift is `uint64_t` arithmetic, hence the `% W64`. -/
def BufferInfo.Pack (kind : Kind) (size : Nat) : Nat :=
  ((size <<< 2) % W64) ||| kind.toNat

/-- `Unpack(packed)`: `*size = packed >> 2; *kind = static_cast<Kind>((packed << 62) >> 62)`.
The double shift is `uint64_t` arithmetic, hence the `% W64`. -/
def BufferInfo.Unpack (packed : Nat) : Kind × Nat :=
  (Kind.ofBits (((packed <<< 62) % W64) >>> 62), packed >>> 2)

/-- The private constructor `BufferInfo(Kind kind, uint64_t size, uint64_t entry_param_number)`:
the bitfield store truncates `size` to 62 bits, and the `int64_t` member keeps
the 64-bit pattern of `entry_param_number`. -/
def BufferInfo.mk64 (kind : Kind) (size : Nat) (entry_param_number : Nat) : BufferInfo :=
  ⟨kind, size % W62, entry_param_number % W64⟩

/-- The decoding constructor `BufferInfo(std::pair<uint64_t, uint64_t> encoding)`:
unpacks `encoding.first` into kind and size and stores `encoding.second` as the
entry parameter number. -/
def BufferInfo.decode (encoding : Nat × Nat) : BufferInfo :=
  let ks := BufferInfo.Unpack encoding.1
  ⟨ks.1, ks.2 % W62, encoding.2 % W64⟩

/-- `Encode()`: `{Pack(kind(), size_), uint64_t(entry_param_number_)}`. -/
def BufferInfo.Encode (b : BufferInfo) : Nat × Nat :=
  (BufferInfo.Pack b.kind b.size_, b.entry_param_number_)

/-- `operator==`: equal kind and size, and, only when the kind is
`kEntryParameter`, equal entry parameter number. -/
def BufferInfo.eqOp (a b : BufferInfo) : Bool :=
  if a.kind != b.kind || a.size != b.size then false
  else !a.is_entry_parameter
    || (a.entry_parameter_number == b.entry_parameter_number)

/-- `MakeTempBuffer(size)`: kind `kTempBuffer`, entry parameter number `-1`. -/
def BufferInfo.MakeTempBuffer (size : Nat) : BufferInfo :=
  BufferInfo.mk64 .kTempBuffer size neg1u64

/-- `MakeConstant(size)`: kind `kConstant`, entry parameter number `-1`. -/
def BufferInfo.MakeConstant (size : Nat) : BufferInfo :=
  BufferInfo.mk64 .kConstant size neg1u64

/-- `MakeEntryParameter(size, param_number)`. -/
def BufferInfo.MakeEntryParameter (size : Nat) (param_number : Nat) : BufferInfo :=
  BufferInfo.mk64 .kEntryParameter size param_number

/-- `MakeOnStackBuffer(size)`: kind `kOnStackBuffer`, entry parameter number `-1`. -/
def BufferInfo.MakeOnStackBuffer (size : Nat) : BufferInfo :=
  BufferInfo.mk64 .kOnStackBuffer size neg1u64

/-- Or-ing a multiple of `2 ^ k` with a value below `2 ^ k` is addition. -/
lemma two_pow_mul_or_eq_add (k : Nat) :
    ∀ a b : Nat, b < 2 ^ k → (2 ^ k * a) ||| b = 2 ^ k * a + b := by
  induction k with
  | zero =>
    intro a b hb
    interval_cases b
    simp
  | succ k ih =>
    intro a b hb
    have hpow : (2:Nat) ^ (k + 1) = 2 * 2 ^ k := by ring
    have hx : 2 ^ (k + 1) * a = 2 * (2 ^ k * a) := by ring
    have hb2 : b / 2 < 2 ^ k := by omega
    have ih2 : (2 ^ k * a) ||| (b / 2) = 2 ^ k * a + b / 2 := ih a (b / 2) hb2
    have hdiv : ((2 * (2 ^ k * a)) ||| b) / 2 = (2 ^ k * a) ||| (b / 2) := by
      rw [Nat.or_div_two]
      congr 1
      omega
    have hmod1 : ((2 * (2 ^ k * a)) ||| b) % 2 = 1 ↔
        (2 * (2 ^ k * a)) % 2 = 1 ∨ b % 2 = 1 := Nat.or_mod_two_eq_one
    have hmolt : ((2 * (2 ^ k * a)) ||| b) % 2 < 2 := Nat.mod_lt _ (by omega)
    have hdm : (2 * (2 ^ k * a)) ||| b =
        2 * (((2 * (2 ^ k * a)) ||| b) / 2) + ((2 * (2 ^ k * a)) ||| b) % 2 :=
      (Nat.div_add_mod _ 2).symm
    rw [hx]
    omega

/-- The `uint64_t` double shift `(w << 62) >> 62` extracts the low two bits. -/
lemma shift62_extracts_low_bits (w : Nat) : ((w <<< 62) % W64) >>> 62 = w % 4 := by
  rw [Nat.shiftLeft_eq, Nat.shiftRight_eq_div_pow]
  have h1 : w * 2 ^ 62 = 2 ^ 62 * w := by ring
  have h2 : W64 = 2 ^ 62 * 4 := by norm_num [W64]
  rw [h1, h2, Nat.mul_mod_mul_left]
  exact Nat.mul_div_cancel_left _ (by norm_num)

/-- Every `Kind` enumerator value is below 4. -/
lemma Kind.toNat_lt_four (k : Kind) : k.toNat < 4 := by cases k <;> decide

/-- Casting a 2-bit value to `Kind` and back is the identity. -/
lemma Kind.toNat_ofBits (m : Nat) (hm : m < 4) : (Kind.ofBits m).toNat = m := by
  interval_cases m <;> rfl

/-- Casting a `Kind` to its value and back is the identity. -/
lemma Kind.ofBits_toNat (k : Kind) : Kind.ofBits k.toNat = k := by cases k <;> rfl

/-- For an in-range size, `Pack` is plain arithmetic: `4 * size + kind`. -/
lemma Pack_eq_add (k : Kind) (s : Nat) (hs : s < W62) :
    BufferInfo.Pack k s = 4 * s + k.toNat := by
  unfold BufferInfo.Pack
  rw [Nat.shiftLeft_eq]
  have h4 : (2:Nat) ^ 2 = 4 := by norm_num
  have hW : W64 = 4 * W62 := by norm_num [W64, W62]
  have hs4 : s * 2 ^ 2 = 4 * s := by ring
  rw [hs4, Nat.mod_eq_of_lt (by omega : 4 * s < W64)]
  have h := two_pow_mul_or_eq_add 2 s k.toNat (by rw [h4]; exact k.toNat_lt_four)
  rw [h4] at h
  exact h

/-- `Unpack` is a left inverse of `Pack` on in-range sizes. -/
lemma Unpack_Pack (k : Kind) (s : Nat) (hs : s < W62) :
    BufferInfo.Unpack (BufferInfo.Pack k s) = (k, s) := by
  have hp := Pack_eq_add k s hs
  have hkt := k.toNat_lt_four
  unfold BufferInfo.Unpack
  rw [hp, shift62_extracts_low_bits]
  have hmod : (4 * s + k.toNat) % 4 = k.toNat := by omega
  have hdiv : (4 * s + k.toNat) >>> 2 = s := by
    rw [Nat.shiftRight_eq_div_pow]
    have h4 : (2:Nat) ^ 2 = 4 := by norm_num
    rw [h4]
    omega
  rw [hmod, hdiv, Kind.ofBits_toNat]

/-- Decoding an encoded descriptor with in-range fields reproduces it. -/
lemma decode_Encode (b : BufferInfo) (hs : b.size_ < W62)
    (he : b.entry_param_number_ < W64) :
    BufferInfo.decode (BufferInfo.Encode b) = b := by
  cases b with
  | mk k s e =>
    simp only [BufferInfo.Encode, BufferInfo.decode, BufferInfo.kind] at *
    rw [Unpack_Pack k s hs]
    simp [Nat.mod_eq_of_lt hs, Nat.mod_eq_of_lt he]

/-- Sizes stored through the private constructor satisfy the bitfield bound. -/
lemma mk64_size_lt (k : Kind) (s e : Nat) : (BufferInfo.mk64 k s e).size_ < W62 :=
  Nat.mod_lt _ (by norm_num [W62])

/-- Parameter numbers stored through the private constructor are 64-bit. -/
lemma mk64_epn_lt (k : Kind) (s e : Nat) :
    (BufferInfo.mk64 k s e).entry_param_number_ < W64 :=
  Nat.mod_lt _ (by norm_num [W64])

/-- Claim C1: for every descriptor built by one of the four factory methods,
over all sizes (in particular 0, 1 and `2 ^ 62 - 1`) and all entry parameter
numbers (in particular the 64-bit pattern of `-1`), decoding the two-word
encoding reproduces a descriptor equal to the original. -/
theorem decode_encode_factories (s p : Nat) :
    BufferInfo.decode (BufferInfo.Encode (BufferInfo.MakeTempBuffer s))
        = BufferInfo.MakeTempBuffer s
    ∧ BufferInfo.decode (BufferInfo.Encode (BufferInfo.MakeConstant s))
        = BufferInfo.MakeConstant s
    ∧ BufferInfo.decode (BufferInfo.Encode (BufferInfo.MakeEntryParameter s p))
        = BufferInfo.MakeEntryParameter s p
    ∧ BufferInfo.decode (BufferInfo.Encode (BufferInfo.MakeOnStackBuffer s))
        = BufferInfo.MakeOnStackBuffer s :=
  ⟨decode_Encode _ (mk64_size_lt _ _ _) (mk64_epn_lt _ _ _),
   decode_Encode _ (mk64_size_lt _ _ _) (mk64_epn_lt _ _ _),
   decode_Encode _ (mk64_size_lt _ _ _) (mk64_epn_lt _ _ _),
   decode_Encode _ (mk64_size_lt _ _ _) (mk64_epn_lt _ _ _)⟩

/-- Claim C7: two entry parameter descriptors with equal size but different
parameter numbers compare unequal under `operator==`; two descriptors of any
non-entry-parameter kind with equal kind and equal size compare equal
regardless of the value stored in the unused parameter-number field. -/
theorem eqOp_equality_law :
    (∀ s p q : Nat, p < W64 → q < W64 → p ≠ q →
      BufferInfo.eqOp (BufferInfo.MakeEntryParameter s p)
        (BufferInfo.MakeEntryParameter s q) = false)
    ∧ (∀ a b : BufferInfo, a.kind_ = b.kind_ → a.kind_ ≠ Kind.kEntryParameter →
        a.size_ = b.size_ → BufferInfo.eqOp a b = true) := by
  constructor
  · intro s p q hp hq hne
    simp only [BufferInfo.eqOp, BufferInfo.MakeEntryParameter, BufferInfo.mk64,
      BufferInfo.kind, BufferInfo.size, BufferInfo.is_entry_parameter,
      BufferInfo.entry_parameter_number]
    simp [Nat.mod_eq_of_lt hp, Nat.mod_eq_of_lt hq, hne]
  · intro a b hk hknd hsz
    simp only [BufferInfo.eqOp, BufferInfo.kind, BufferInfo.size,
      BufferInfo.is_entry_parameter]
    simp [hk, hsz]
    exact Or.inl (hk ▸ hknd)

/-- Concrete instance of the equality law: parameter numbers 0 and 1 at size 8,
and two constant-kind descriptors whose parameter-number fields differ. -/
theorem eqOp_equality_law_witness :
    BufferInfo.eqOp (BufferInfo.MakeEntryParameter 8 0)
        (BufferInfo.MakeEntryParameter 8 1) = false
    ∧ BufferInfo.eqOp (BufferInfo.decode (BufferInfo.Pack Kind.kConstant 8, 5))
        (BufferInfo.MakeConstant 8) = true :=
  ⟨eqOp_equality_law.1 8 0 1 (by norm_num [W64]) (by norm_num [W64]) (by omega),
   eqOp_equality_law.2 _ _ (by decide) (by decide) (by decide)⟩

/-- Claim C8: the packed word is `(size << 2) | kind`; unpacking any 64-bit
word yields size `w >> 2` and the kind cast (unsigned, no sign extension) of
the low two bits; unpacking a packed pair recovers it exactly, so size and
kind never perturb each other across an encode/decode cycle. -/
theorem pack_unpack_isolation (k : Kind) (s w : Nat) (hs : s < W62) (hw : w < W64) :
    BufferInfo.Pack k s = (s <<< 2) ||| k.toNat
    ∧ (BufferInfo.Unpack w).2 = w >>> 2
    ∧ (BufferInfo.Unpack w).1 = Kind.ofBits (w % 4)
    ∧ BufferInfo.Unpack (BufferInfo.Pack k s) = (k, s) := by
  refine ⟨?_, rfl, ?_, Unpack_Pack k s hs⟩
  · unfold BufferInfo.Pack
    congr 1
    apply Nat.mod_eq_of_lt
    rw [Nat.shiftLeft_eq]
    have h4 : (2:Nat) ^ 2 = 4 := by norm_num
    have hW : W64 = 4 * W62 := by norm_num [W64, W62]
    omega
  · unfold BufferInfo.Unpack
    rw [shift62_extracts_low_bits]

/-- Concrete instance of the packing laws at kind `kTempBuffer`, size 5,
word 7. -/
theorem pack_unpack_isolation_witness :
    BufferInfo.Pack Kind.kTempBuffer 5 = (5 <<< 2) ||| Kind.toNat Kind.kTempBuffer
    ∧ (BufferInfo.Unpack 7).2 = 7 >>> 2
    ∧ (BufferInfo.Unpack 7).1 = Kind.ofBits (7 % 4)
    ∧ BufferInfo.Unpack (BufferInfo.Pack Kind.kTempBuffer 5) = (Kind.kTempBuffer, 5) :=
  pack_unpack_isolation Kind.kTempBuffer 5 7 (by norm_num [W62]) (by norm_num [W64])

/-- Claim C10: the decoding constructor is total on every pair of 64-bit words
and `Encode` is its exact left inverse there, not only on pairs produced by
`Encode`. -/
theorem encode_decode_left_inverse (w1 w2 : Nat) (h1 : w1 < W64) (h2 : w2 < W64) :
    BufferInfo.Encode (BufferInfo.decode (w1, w2)) = (w1, w2) := by
  have h4 : (2:Nat) ^ 2 = 4 := by norm_num
  have hW : W64 = 4 * W62 := by norm_num [W64, W62]
  have hq : w1 >>> 2 = w1 / 4 := by rw [Nat.shiftRight_eq_div_pow, h4]
  have hqlt : w1 / 4 < W62 := by omega
  have hkt : (Kind.ofBits (w1 % 4)).toNat = w1 % 4 := Kind.toNat_ofBits _ (by omega)
  have hpack : BufferInfo.Pack (Kind.ofBits (w1 % 4)) (w1 / 4) = w1 := by
    unfold BufferInfo.Pack
    rw [Nat.shiftLeft_eq, h4, hkt]
    have hle : w1 / 4 * 4 ≤ w1 := Nat.div_mul_le_self w1 4
    rw [Nat.mod_eq_of_lt (by omega : w1 / 4 * 4 < W64)]
    have hor := two_pow_mul_or_eq_add 2 (w1 / 4) (w1 % 4) (by omega)
    rw [h4] at hor
    rw [Nat.mul_comm (w1 / 4) 4, hor]
    omega
  simp only [BufferInfo.decode, BufferInfo.Unpack, BufferInfo.Encode,
    BufferInfo.kind, shift62_extracts_low_bits]
  rw [hq, Nat.mod_eq_of_lt hqlt, Nat.mod_eq_of_lt h2, hpack]

/-- Concrete instance of decode-then-encode at words 11 and 3. -/
theorem encode_decode_left_inverse_witness :
    BufferInfo.Encode (BufferInfo.decode (11, 3)) = (11, 3) :=
  encode_decode_left_inverse 11 3 (by norm_num [W64]) (by norm_num [W64])

/-- `struct XLA_CPU_KernelThreadDim`, also `Kernel::ThreadDim`: the (x, y, z)
shape of the launch grid, three `uint64_t` values. -/
structure ThreadDim where
  x : Nat
  y : Nat
  z : Nat
deriving DecidableEq

/-- `struct XLA_CPU_KernelThread`: one (x, y, z) coordinate in the grid. -/
structure KernelThread where
  x : Nat
  y : Nat
  z : Nat
deriving DecidableEq

/-- `struct XLA_CPU_KernelArg`: a (pointer, size) pair; the pointer is
modelled by its address value. -/
structure KernelArg where
  data : Nat
  size : Nat
deriving DecidableEq

/-- `struct XLA_CPU_KernelCallFrame`: {thread dims, thread coordinate,
number of arguments, argument array}. -/
structure KernelCallFrame where
  thread_dims : ThreadDim
  thread : KernelThread
  num_args : Nat
  args : List KernelArg
deriving DecidableEq

/-- Builds the call frame `{&dims, &thread, args.size(), args.data()}`. -/
def mkCallFrame (dims : ThreadDim) (t : KernelThread) (args : List KernelArg) :
    KernelCallFrame :=
  ⟨dims, t, args.length, args⟩

/-- `class Kernel`: a declared arity plus the native function
`XLA_CPU_Kernel*`.  The native function is modelled by whether the returned
`XLA_CPU_KernelError*` is non-null (`true` means failure). -/
structure Kernel where
  arity : Nat
  kernel : KernelCallFrame → Bool

/-- The message of `absl::InternalError` in the synchronous `Launch`. -/
def syncFailMessage : String := "Failed to call host kernel"

/-- Decimal digit character. -/
def digitChar (d : Nat) : Char := Char.ofNat (48 + d)

/-- Fuel-driven decimal rendering helper. -/
def decimalAux : Nat → Nat → List Char
  | 0, _ => []
  | fuel + 1, n =>
    if n < 10 then [digitChar n]
    else decimalAux fuel (n / 10) ++ [digitChar (n % 10)]

/-- Decimal rendering of a natural number, as printed by `%d`. -/
def decimal (n : Nat) : String := ⟨decimalAux (n + 1) n⟩

/-- The message of `Internal("Failed to call host kernel: x=%d, y=%d, z=%d", ...)`
built by `KernelParallelTask::operator()` on a native failure. -/
def taskErrorMessage (t : KernelThread) : String :=
  "Failed to call host kernel: x=" ++ decimal t.x ++ ", y=" ++ decimal t.y
    ++ ", z=" ++ decimal t.z

/-- A message includes a coordinate when the decimal renderings of all three
components occur in it. -/
def coordInMessage (msg : String) (t : KernelThread) : Prop :=
  (decimal t.x).data <:+: msg.data ∧ (decimal t.y).data <:+: msg.data
    ∧ (decimal t.z).data <:+: msg.data

/-- The grid traversal order of the synchronous `Launch`: `z` is the outer
loop, then `y`, then `x` (fastest-varying). -/
def gridCoords (dims : ThreadDim) : List KernelThread :=
  (List.range dims.z).flatMap fun z =>
    (List.range dims.y).flatMap fun y =>
      (List.range dims.x).map fun x => ⟨x, y, z⟩

/-- The body of the synchronous `Launch` loop nest over a list of remaining
coordinates: invoke the kernel on each call frame in order; on the first
non-null error return `absl::InternalError("Failed to call host kernel")`
immediately.  The second component is the trace of call frames passed to the
native kernel. -/
def runSeq (kernel : KernelCallFrame → Bool) (dims : ThreadDim)
    (args : List KernelArg) :
    List KernelThread → Except String Unit × List KernelCallFrame
  | [] => (Except.ok (), [])
  | t :: rest =>
    let frame := mkCallFrame dims t args
    if kernel frame then (Except.error syncFailMessage, [frame])
    else
      let r := runSeq kernel dims args rest
      (r.1, frame :: r.2)

/-- The synchronous `Kernel::Launch(thread_dims, args)` overload, instrumented
with the ordered trace of call frames handed to the native kernel. -/
def Kernel.Launch (k : Kernel) (dims : ThreadDim) (args : List KernelArg) :
    Except String Unit × List KernelCallFrame :=
  runSeq k.kernel dims args (gridCoords dims)

/-- `KernelParallelTask::Delinearize`: converts a linear task index to an
(x, y, z) coordinate, `x` fastest-varying.  The stride product is `uint64_t`
arithmetic, hence the `% W64`. -/
def KernelParallelTask.Delinearize (thread_dims : ThreadDim) (task_index : Nat) :
    KernelThread :=
  let stride_z := (thread_dims.y * thread_dims.x) % W64
  let stride_y := thread_dims.x
  let z := task_index / stride_z
  let r1 := task_index % stride_z
  let y := r1 / stride_y
  let x := r1 % stride_y
  ⟨x, y, z⟩

/-- `KernelParallelTask::operator()(task_index)`: delinearize, build the call
frame, invoke the kernel, and on a non-null error return the internal error
whose message names the failing coordinate. -/
def KernelParallelTask.call (kernel : KernelCallFrame → Bool)
    (thread_dims : ThreadDim) (args : List KernelArg) (task_index : Nat) :
    Except String Unit :=
  let kernel_thread := KernelParallelTask.Delinearize thread_dims task_index
  let call_frame := mkCallFrame thread_dims kernel_thread args
  if kernel call_frame then Except.error (taskErrorMessage kernel_thread)
  else Except.ok ()

/-- The completion signal returned by the asynchronous `Launch`: either an
already-available `AsyncValueRef` (`OkLaunchEvent` or
`MakeErrorAsyncValueRef`), or the value of `Worker::Parallelize(device,
num_workers, num_tasks, task)`, recorded with its worker and task counts and
the task function that was submitted to the pool. -/
inductive AsyncLaunch where
  | resolved : Except String Unit → AsyncLaunch
  | parallelized : Nat → Nat → (Nat → Except String Unit) → AsyncLaunch

/-- The asynchronous `Kernel::Launch(thread_dims, args, device)` overload.
`none` models the fatal `CHECK_GT(num_tasks, 0)` crash.  With one task the
synchronous overload runs inline on the calling thread and the signal is
resolved immediately; otherwise the task is handed to the worker pool with
`min(num_tasks, device->numThreadsInPool(), uint16 max)` workers. -/
def Kernel.LaunchAsync (k : Kernel) (dims : ThreadDim) (args : List KernelArg)
    (numThreadsInPool : Nat) : Option AsyncLaunch :=
  let num_tasks := (dims.x * dims.y * dims.z) % W64
  if num_tasks = 0 then none
  else if num_tasks = 1 then
    some (AsyncLaunch.resolved (k.Launch dims args).1)
  else
    let num_workers := min (min num_tasks numThreadsInPool) 65535
    some (AsyncLaunch.parallelized num_workers num_tasks
      (KernelParallelTask.call k.kernel dims args))

/-- The coordinate of linear index `i` under the convention that `x` is the
fastest-varying dimension. -/
def coordOfLinear (dims : ThreadDim) (i : Nat) : KernelThread :=
  ⟨i % dims.x, i / dims.x % dims.y, i / (dims.x * dims.y)⟩

/-- One z-plane of the loop nest, as a map over linear indices. -/
lemma plane_eq (X Y z : Nat) :
    (List.range Y).flatMap
        (fun y => (List.range X).map (fun x => (⟨x, y, z⟩ : KernelThread)))
      = (List.range (Y * X)).map
          (fun i => (⟨i % X, i / X, z⟩ : KernelThread)) := by
  induction Y with
  | zero => simp
  | succ Y ih =>
    rw [List.range_succ, List.flatMap_append, ih]
    have hYX : (Y + 1) * X = Y * X + X := by ring
    rw [hYX, List.range_add, List.map_append]
    congr 1
    simp only [List.flatMap_cons, List.flatMap_nil, List.append_nil, List.map_map]
    apply List.map_congr_left
    intro x hx
    have hxX : x < X := List.mem_range.mp hx
    have h1 : (Y * X + x) % X = x := by
      rw [Nat.add_comm, Nat.add_mul_mod_self_right, Nat.mod_eq_of_lt hxX]
    have h2 : (Y * X + x) / X = Y := by
      rw [Nat.add_comm, Nat.add_mul_div_right _ _ (by omega : 0 < X),
        Nat.div_eq_of_lt hxX]
      omega
    simp [h1, h2]

/-- The grid traversal of the synchronous launch enumerates exactly the
linear indices `0, 1, ..., z*y*x - 1` delinearized with `x` fastest-varying:
the nest order is `z` outermost, then `y`, then `x`. -/
lemma gridCoords_eq_map (dims : ThreadDim) :
    gridCoords dims
      = (List.range (dims.z * (dims.y * dims.x))).map (coordOfLinear dims) := by
  obtain ⟨X, Y, Z⟩ := dims
  simp only [gridCoords, coordOfLinear]
  induction Z with
  | zero => simp
  | succ Z ih =>
    rw [List.range_succ, List.flatMap_append, ih]
    have hZYX : (Z + 1) * (Y * X) = Z * (Y * X) + Y * X := by ring
    rw [hZYX, List.range_add, List.map_append]
    congr 1
    simp only [List.flatMap_cons, List.flatMap_nil, List.append_nil, List.map_map]
    rw [plane_eq X Y Z]
    apply List.map_congr_left
    intro i hi
    have hiYX : i < Y * X := List.mem_range.mp hi
    have hXpos : 0 < X := by
      rcases Nat.eq_zero_or_pos X with hX0 | hX
      · subst hX0; simp at hiYX
      · exact hX
    have hYpos : 0 < Y := by
      rcases Nat.eq_zero_or_pos Y with hY0 | hY
      · subst hY0; simp at hiYX
      · exact hY
    have e1 : (Z * (Y * X) + i) % X = i % X := by
      rw [Nat.add_comm, ← Nat.mul_assoc, Nat.add_mul_mod_self_right]
    have ed : (Z * (Y * X) + i) / X = i / X + Z * Y := by
      rw [Nat.add_comm, ← Nat.mul_assoc, Nat.add_mul_div_right _ _ hXpos]
    have hiX : i / X < Y := Nat.div_lt_of_lt_mul (by rw [Nat.mul_comm] at hiYX; exact hiYX)
    have e2 : (Z * (Y * X) + i) / X % Y = i / X := by
      rw [ed, Nat.add_mul_mod_self_right, Nat.mod_eq_of_lt hiX]
    have e3 : (Z * (Y * X) + i) / (X * Y) = Z := by
      rw [Nat.add_comm, Nat.mul_comm Y X, Nat.add_mul_div_right _ _
        (by positivity : 0 < X * Y), Nat.div_eq_of_lt (by rw [Nat.mul_comm] at hiYX; exact hiYX)]
      omega
    simp [coordOfLinear, e1, e2, e3]

/-- If no coordinate fails, the loop nest body visits every remaining
coordinate in order and returns success. -/
lemma runSeq_all_ok (kernel : KernelCallFrame → Bool) (dims : ThreadDim)
    (args : List KernelArg) :
    ∀ l : List KernelThread, (∀ c ∈ l, kernel (mkCallFrame dims c args) = false) →
      runSeq kernel dims args l
        = (Except.ok (), l.map (fun c => mkCallFrame dims c args)) := by
  intro l
  induction l with
  | nil => intro _; rfl
  | cons t rest ih =>
    intro h
    have ht : kernel (mkCallFrame dims t args) = false := h t (by simp)
    have hr := ih (fun c hc => h c (by simp [hc]))
    simp [runSeq, ht, hr]

/-- If every coordinate before `c` succeeds and `c` fails, the loop nest body
invokes exactly the coordinates up to and including `c` and then returns the
internal error immediately. -/
lemma runSeq_first_err (kernel : KernelCallFrame → Bool) (dims : ThreadDim)
    (args : List KernelArg) :
    ∀ (pre : List KernelThread) (c : KernelThread) (post : List KernelThread),
      (∀ b ∈ pre, kernel (mkCallFrame dims b args) = false) →
      kernel (mkCallFrame dims c args) = true →
      runSeq kernel dims args (pre ++ c :: post)
        = (Except.error syncFailMessage,
           pre.map (fun b => mkCallFrame dims b args) ++ [mkCallFrame dims c args]) := by
  intro pre
  induction pre with
  | nil =>
    intro c post _ hc
    simp [runSeq, hc]
  | cons b rest ih =>
    intro c post hpre hc
    have hb : kernel (mkCallFrame dims b args) = false := hpre b (by simp)
    have hr := ih c post (fun d hd => hpre d (by simp [hd])) hc
    simp [runSeq, hb, hr]

/-- Claim C2 as stated is false: for grid (x=3, y=4, z=5), delinearizing
linear task index 37 does not yield (x=1, y=3, z=3) (the strides give
z = 37 / 12 = 3, remainder 1, hence y = 0, x = 1). -/
theorem delinearize_grid345_idx37_counterexample :
    KernelParallelTask.Delinearize ⟨3, 4, 5⟩ 37 ≠ (⟨1, 3, 3⟩ : KernelThread) := by
  decide

/-- Claim C2 (amended): for grid (x=3, y=4, z=5), delinearizing linear task
index 37 under the x-fastest convention yields (x=1, y=0, z=3). -/
theorem delinearize_grid345_idx37 :
    KernelParallelTask.Delinearize ⟨3, 4, 5⟩ 37 = (⟨1, 0, 3⟩ : KernelThread) := by
  decide

/-- Claim C4: the synchronous launch invokes the native kernel once per grid
coordinate, in the order of linear indices delinearized x-fastest (z outermost,
then y, then x), handing each invocation the call frame {thread dims, current
coordinate, argument list}; it stops right after the first failing invocation
and returns the wrapped failure, and returns success with the full trace
otherwise. -/
theorem launch_sync_contract (k : Kernel) (dims : ThreadDim) (args : List KernelArg) :
    gridCoords dims
        = (List.range (dims.z * (dims.y * dims.x))).map (coordOfLinear dims)
    ∧ ((∀ c ∈ gridCoords dims, k.kernel (mkCallFrame dims c args) = false) →
        k.Launch dims args
          = (Except.ok (), (gridCoords dims).map (fun c => mkCallFrame dims c args)))
    ∧ (∀ (pre : List KernelThread) (c : KernelThread) (post : List KernelThread),
        gridCoords dims = pre ++ c :: post →
        (∀ b ∈ pre, k.kernel (mkCallFrame dims b args) = false) →
        k.kernel (mkCallFrame dims c args) = true →
        k.Launch dims args
          = (Except.error syncFailMessage,
             pre.map (fun b => mkCallFrame dims b args)
               ++ [mkCallFrame dims c args])) := by
  refine ⟨gridCoords_eq_map dims, ?_, ?_⟩
  · intro h
    exact runSeq_all_ok k.kernel dims args (gridCoords dims) h
  · intro pre c post hsplit hpre hc
    unfold Kernel.Launch
    rw [hsplit]
    exact runSeq_first_err k.kernel dims args pre c post hpre hc

/-- Concrete instance of the synchronous launch contract: an all-succeeding
kernel on grid (2, 3, 1) visits the whole grid and returns success. -/
theorem launch_sync_contract_witness :
    (Kernel.mk 0 (fun _ => false)).Launch ⟨2, 3, 1⟩ []
      = (Except.ok (),
         (gridCoords ⟨2, 3, 1⟩).map (fun c => mkCallFrame ⟨2, 3, 1⟩ c [])) :=
  (launch_sync_contract (Kernel.mk 0 (fun _ => false)) ⟨2, 3, 1⟩ []).2.1 (by decide)

/-- Claim C9: on the synchronous path a zero-sized grid dimension means the
loop nest runs zero iterations: the native kernel is never invoked and the
launch returns success, unlike the pool-supplied path. -/
theorem launch_sync_zero_dim_ok (k : Kernel) (dims : ThreadDim)
    (args : List KernelArg) (h : dims.x = 0 ∨ dims.y = 0 ∨ dims.z = 0) :
    k.Launch dims args = (Except.ok (), []) := by
  have hzero : dims.z * (dims.y * dims.x) = 0 := by
    rcases h with h | h | h <;> simp [h]
  have hg : gridCoords dims = [] := by
    rw [gridCoords_eq_map, hzero]
    rfl
  unfold Kernel.Launch
  rw [hg]
  rfl

/-- Concrete instance: grid (0, 5, 7) with an always-failing kernel still
returns success with an empty invocation trace. -/
theorem launch_sync_zero_dim_ok_witness :
    (Kernel.mk 0 (fun _ => true)).Launch ⟨0, 5, 7⟩ [] = (Except.ok (), []) :=
  launch_sync_zero_dim_ok (Kernel.mk 0 (fun _ => true)) ⟨0, 5, 7⟩ [] (Or.inl rfl)

/-- Claim C5: with a worker pool supplied and `numTasks = x*y*z = 1`, the
asynchronous launch runs the single invocation inline via the synchronous
overload and returns an already-resolved completion signal carrying that
invocation's result; the pool-submitting branch is never taken, and exactly
one kernel invocation happens. -/
theorem launch_async_single_task_inline (k : Kernel) (dims : ThreadDim)
    (args : List KernelArg) (pool : Nat) (h : dims.x * dims.y * dims.z = 1) :
    k.LaunchAsync dims args pool
        = some (AsyncLaunch.resolved (k.Launch dims args).1)
    ∧ (k.Launch dims args).2.length = 1 := by
  have hz : dims.z = 1 := Nat.eq_one_of_mul_eq_one_left h
  have hxy : dims.x * dims.y = 1 := Nat.eq_one_of_mul_eq_one_right h
  have hx : dims.x = 1 := Nat.eq_one_of_mul_eq_one_right hxy
  have hy : dims.y = 1 := Nat.eq_one_of_mul_eq_one_left hxy
  have hd : dims = ⟨1, 1, 1⟩ := by
    cases dims
    dsimp only at hx hy hz
    subst hx
    subst hy
    subst hz
    rfl
  constructor
  · simp only [Kernel.LaunchAsync, h]
    norm_num [W64]
  · rw [hd]
    have hg : gridCoords ⟨1, 1, 1⟩ = [⟨0, 0, 0⟩] := by decide
    show (runSeq k.kernel ⟨1, 1, 1⟩ args (gridCoords ⟨1, 1, 1⟩)).2.length = 1
    rw [hg]
    cases hk : k.kernel (mkCallFrame ⟨1, 1, 1⟩ ⟨0, 0, 0⟩ args) <;>
      simp [runSeq, hk]

/-- Concrete instance: grid (1, 1, 1), pool of 4 threads, all-succeeding
kernel. -/
theorem launch_async_single_task_inline_witness :
    (Kernel.mk 0 (fun _ => false)).LaunchAsync ⟨1, 1, 1⟩ [] 4
        = some (AsyncLaunch.resolved
            (((Kernel.mk 0 (fun _ => false)).Launch ⟨1, 1, 1⟩ []).1))
    ∧ (((Kernel.mk 0 (fun _ => false)).Launch ⟨1, 1, 1⟩ []).2).length = 1 :=
  launch_async_single_task_inline (Kernel.mk 0 (fun _ => false)) ⟨1, 1, 1⟩ [] 4
    (by decide)

/-- Claim C6: with a worker pool supplied, a zero task count trips the fatal
`CHECK_GT(num_tasks, 0)` (modelled by `none`): the asynchronous launch neither
returns a recoverable signal nor proceeds. -/
theorem launch_async_zero_tasks_fatal (k : Kernel) (dims : ThreadDim)
    (args : List KernelArg) (pool : Nat) (h : dims.x * dims.y * dims.z = 0) :
    k.LaunchAsync dims args pool = none := by
  simp [Kernel.LaunchAsync, h]

/-- Concrete instance: grid (0, 2, 3). -/
theorem launch_async_zero_tasks_fatal_witness :
    (Kernel.mk 0 (fun _ => false)).LaunchAsync ⟨0, 2, 3⟩ [] 4 = none :=
  launch_async_zero_tasks_fatal (Kernel.mk 0 (fun _ => false)) ⟨0, 2, 3⟩ [] 4
    (by decide)

deriving instance DecidableEq for Except

/-- Membership of a coordinate in a message is decidable. -/
instance (msg : String) (t : KernelThread) : Decidable (coordInMessage msg t) := by
  unfold coordInMessage
  infer_instance

/-- Claim C3 as stated is false at a concrete input: in grid (3, 4, 5) with a
kernel failing exactly at coordinate (2, 3, 4), the synchronous launch returns
the fixed message "Failed to call host kernel", which does not include the
failing coordinate. -/
theorem sync_failure_message_counterexample :
    (((Kernel.mk 0 (fun f => f.thread == (⟨2, 3, 4⟩ : KernelThread))).Launch
        ⟨3, 4, 5⟩ []).1 = Except.error syncFailMessage)
    ∧ ¬ coordInMessage syncFailMessage (⟨2, 3, 4⟩ : KernelThread) := by
  constructor
  · decide
  · decide

/-- The parallel-task error message contains all three coordinate
components by construction. -/
lemma coordInMessage_taskErrorMessage (t : KernelThread) :
    coordInMessage (taskErrorMessage t) t := by
  refine ⟨⟨"Failed to call host kernel: x=".data,
      (", y=" ++ decimal t.y ++ ", z=" ++ decimal t.z).data, ?_⟩,
    ⟨("Failed to call host kernel: x=" ++ decimal t.x ++ ", y=").data,
      (", z=" ++ decimal t.z).data, ?_⟩,
    ⟨("Failed to call host kernel: x=" ++ decimal t.x ++ ", y=" ++ decimal t.y
        ++ ", z=").data, [], ?_⟩⟩ <;>
    simp [taskErrorMessage, String.data_append]

/-- Claim C3 (amended): when the native kernel first fails at coordinate `c`
on the synchronous path, the returned failure carries the fixed message
"Failed to call host kernel", which does not name `c`; the coordinate-bearing
message is produced by the parallel task path
(`KernelParallelTask::operator()`). -/
theorem sync_failure_generic_message (k : Kernel) (dims : ThreadDim)
    (args : List KernelArg) (pre : List KernelThread) (c : KernelThread)
    (post : List KernelThread) (hsplit : gridCoords dims = pre ++ c :: post)
    (hpre : ∀ b ∈ pre, k.kernel (mkCallFrame dims b args) = false)
    (hc : k.kernel (mkCallFrame dims c args) = true) :
    (k.Launch dims args).1 = Except.error syncFailMessage
    ∧ ∀ i, k.kernel
          (mkCallFrame dims (KernelParallelTask.Delinearize dims i) args) = true →
        KernelParallelTask.call k.kernel dims args i
            = Except.error
                (taskErrorMessage (KernelParallelTask.Delinearize dims i))
          ∧ coordInMessage
              (taskErrorMessage (KernelParallelTask.Delinearize dims i))
              (KernelParallelTask.Delinearize dims i) := by
  constructor
  · unfold Kernel.Launch
    rw [hsplit, runSeq_first_err k.kernel dims args pre c post hpre hc]
  · intro i hi
    refine ⟨?_, coordInMessage_taskErrorMessage _⟩
    simp only [KernelParallelTask.call, hi]
    rfl

/-- Concrete instance: grid (2, 1, 1) with a kernel failing exactly at
coordinate (1, 0, 0). -/
theorem sync_failure_generic_message_witness :
    (((Kernel.mk 0 (fun f => f.thread == (⟨1, 0, 0⟩ : KernelThread))).Launch
        ⟨2, 1, 1⟩ []).1 = Except.error syncFailMessage)
    ∧ ∀ i, (Kernel.mk 0
          (fun f => f.thread == (⟨1, 0, 0⟩ : KernelThread))).kernel
          (mkCallFrame ⟨2, 1, 1⟩ (KernelParallelTask.Delinearize ⟨2, 1, 1⟩ i) [])
          = true →
        KernelParallelTask.call (Kernel.mk 0
            (fun f => f.thread == (⟨1, 0, 0⟩ : KernelThread))).kernel ⟨2, 1, 1⟩ [] i
            = Except.error
                (taskErrorMessage (KernelParallelTask.Delinearize ⟨2, 1, 1⟩ i))
          ∧ coordInMessage
              (taskErrorMessage (KernelParallelTask.Delinearize ⟨2, 1, 1⟩ i))
              (KernelParallelTask.Delinearize ⟨2, 1, 1⟩ i) :=
  sync_failure_generic_message
    (Kernel.mk 0 (fun f => f.thread == (⟨1, 0, 0⟩ : KernelThread)))
    ⟨2, 1, 1⟩ [] [⟨0, 0, 0⟩] ⟨1, 0, 0⟩ [] (by decide) (by decide) (by decide)

/-- Concrete instance of the factory round-trip at the maximal 62-bit size
and the parameter-number pattern of `-1`. -/
theorem decode_encode_factories_witness :
    BufferInfo.decode (BufferInfo.Encode (BufferInfo.MakeTempBuffer (2 ^ 62 - 1)))
        = BufferInfo.MakeTempBuffer (2 ^ 62 - 1)
    ∧ BufferInfo.decode (BufferInfo.Encode (BufferInfo.MakeConstant (2 ^ 62 - 1)))
        = BufferInfo.MakeConstant (2 ^ 62 - 1)
    ∧ BufferInfo.decode
          (BufferInfo.Encode (BufferInfo.MakeEntryParameter (2 ^ 62 - 1) neg1u64))
        = BufferInfo.MakeEntryParameter (2 ^ 62 - 1) neg1u64
    ∧ BufferInfo.decode (BufferInfo.Encode (BufferInfo.MakeOnStackBuffer (2 ^ 62 - 1)))
        = BufferInfo.MakeOnStackBuffer (2 ^ 62 - 1) :=
  decode_encode_factories (2 ^ 62 - 1) neg1u64
